import Mathlib

/-!
Verification of the Cloudflare voice-gateway session relay
(`VoiceSession` Durable Object and its helper functions).

The source is shallowly embedded:
- JavaScript binary strings and `Uint8Array`s are `List Nat` of byte values
  (each JS character of a binary string carries one code unit < 256);
- `btoa` / `atob` are modelled at the byte level with the standard base64
  alphabet ('A'..'Z' 'a'..'z' '0'..'9' '+' '/' and '=' = code 61 for padding);
- the session's mutable fields become a `SessionState` record, each event
  handler becomes a pure function returning the new state plus the list of
  observable effects (sends and closes) it performs, in program order;
- `try { ... } catch {}` blocks around a fallible call become an
  `Except`-valued parameter standing for the call's outcome, which the
  embedded handler swallows exactly as the source does.
-/

namespace VoiceGateway

/-- Code of the base64 alphabet character at index `n` (as produced by `btoa`):
'A'..'Z' are 65..90, 'a'..'z' are 97..122, '0'..'9' are 48..57,
'+' is 43, '/' is 47. -/
def b64Code (n : Nat) : Nat :=
  if n < 26 then 65 + n
  else if n < 52 then 97 + (n - 26)
  else if n < 62 then 48 + (n - 52)
  else if n = 62 then 43
  else 47

/-- Index of a base64 alphabet character code (as consumed by `atob`). -/
def b64Dec (c : Nat) : Nat :=
  if 65 ≤ c ∧ c ≤ 90 then c - 65
  else if 97 ≤ c ∧ c ≤ 122 then 26 + (c - 97)
  else if 48 ≤ c ∧ c ≤ 57 then 52 + (c - 48)
  else if c = 43 then 62
  else if c = 47 then 63
  else 0

theorem b64Dec_b64Code (n : Nat) (h : n < 64) : b64Dec (b64Code n) = n := by
  unfold b64Code b64Dec
  split_ifs <;> omega

theorem b64Code_ne_pad (n : Nat) : b64Code n ≠ 61 := by
  unfold b64Code
  split_ifs <;> omega

/-- Byte-level model of the platform `btoa` on a binary string: encode groups
of three bytes into four alphabet codes, padding a final group of one or two
bytes with '=' (code 61). -/
def btoa : List Nat → List Nat
  | [] => []
  | [b1] => [b64Code (b1 / 4), b64Code (b1 % 4 * 16), 61, 61]
  | [b1, b2] =>
    [b64Code (b1 / 4), b64Code (b1 % 4 * 16 + b2 / 16), b64Code (b2 % 16 * 4), 61]
  | b1 :: b2 :: b3 :: rest =>
    b64Code (b1 / 4) :: b64Code (b1 % 4 * 16 + b2 / 16) ::
      b64Code (b2 % 16 * 4 + b3 / 64) :: b64Code (b3 % 64) :: btoa rest

/-- Byte-level model of the platform `atob`: decode groups of four alphabet
codes into three bytes, with '=' padding cutting the final group short. -/
def atob : List Nat → List Nat
  | c1 :: c2 :: c3 :: c4 :: rest =>
    if c3 = 61 then [b64Dec c1 * 4 + b64Dec c2 / 16]
    else if c4 = 61 then
      [b64Dec c1 * 4 + b64Dec c2 / 16, b64Dec c2 % 16 * 16 + b64Dec c3 / 4]
    else
      (b64Dec c1 * 4 + b64Dec c2 / 16) ::
        (b64Dec c2 % 16 * 16 + b64Dec c3 / 4) ::
        (b64Dec c3 % 4 * 64 + b64Dec c4) :: atob rest
  | _ => []

/-- Embedding of `arrayBufferToBase64`: the 0x8000-element chunking of the
source only bounds the `String.fromCharCode` argument count; the concatenated
binary string is exactly the byte sequence, so the function is `btoa` of the
bytes. -/
def arrayBufferToBase64 (buffer : List Nat) : List Nat := btoa buffer

/-- Embedding of `base64ToUint8Array`: `atob` to a binary string, then store
each character code into a `Uint8Array` (which truncates modulo 256). -/
def base64ToUint8Array (base64 : List Nat) : List Nat :=
  (atob base64).map (fun c => c % 256)

theorem atob_btoa : ∀ b : List Nat, (∀ x ∈ b, x < 256) → atob (btoa b) = b
  | [], _ => rfl
  | [b1], h => by
    have h1 : b1 < 256 := h b1 (by simp)
    have d1 := b64Dec_b64Code (b1 / 4) (by omega)
    have d2 := b64Dec_b64Code (b1 % 4 * 16) (by omega)
    simp [btoa, atob, d1, d2] ; omega
  | [b1, b2], h => by
    have h1 : b1 < 256 := h b1 (by simp)
    have h2 : b2 < 256 := h b2 (by simp)
    have d1 := b64Dec_b64Code (b1 / 4) (by omega)
    have d2 := b64Dec_b64Code (b1 % 4 * 16 + b2 / 16) (by omega)
    have d3 := b64Dec_b64Code (b2 % 16 * 4) (by omega)
    simp [btoa, atob, b64Code_ne_pad, d1, d2, d3] ; omega
  | b1 :: b2 :: b3 :: rest, h => by
    have h1 : b1 < 256 := h b1 (by simp)
    have h2 : b2 < 256 := h b2 (by simp)
    have h3 : b3 < 256 := h b3 (by simp)
    have ih : atob (btoa rest) = rest :=
      atob_btoa rest (fun x hx => h x (by simp [hx]))
    have d1 := b64Dec_b64Code (b1 / 4) (by omega)
    have d2 := b64Dec_b64Code (b1 % 4 * 16 + b2 / 16) (by omega)
    have d3 := b64Dec_b64Code (b2 % 16 * 4 + b3 / 64) (by omega)
    have d4 := b64Dec_b64Code (b3 % 64) (by omega)
    simp [btoa, atob, b64Code_ne_pad, d1, d2, d3, d4, ih] ; omega

theorem map_mod_of_lt : ∀ b : List Nat, (∀ x ∈ b, x < 256) →
    b.map (fun c => c % 256) = b
  | [], _ => rfl
  | x :: xs, h => by
    have hx : x < 256 := h x (by simp)
    simp only [List.map_cons, Nat.mod_eq_of_lt hx]
    rw [map_mod_of_lt xs (fun y hy => h y (by simp [hy]))]

/-- Claim C10: decoding with `base64ToUint8Array` the string produced by
`arrayBufferToBase64` on a byte array yields exactly that byte array, so audio
payloads re-encoded into or decoded from the provider's base64 envelope are
byte-for-byte preserved. -/
theorem c10_base64_roundtrip (b : List Nat) (hb : ∀ x ∈ b, x < 256) :
    base64ToUint8Array (arrayBufferToBase64 b) = b := by
  unfold base64ToUint8Array arrayBufferToBase64
  rw [atob_btoa b hb]
  exact map_mod_of_lt b hb

/-- Concrete instance of the claim C10 round trip. -/
theorem c10_base64_roundtrip_witness :
    base64ToUint8Array (arrayBufferToBase64 [0, 77, 255, 128, 3]) = [0, 77, 255, 128, 3] :=
  c10_base64_roundtrip [0, 77, 255, 128, 3] (by decide)

/-- Observable effect of a session handler, in program order: a send on the
upstream (Gemini) link, a send on the client link, or a close of either link. -/
inductive Effect where
  | upstreamSetup : Effect
  | upstreamAudio : List Nat → Effect
  | upstreamStreamEnd : Effect
  | clientMsg : String → Effect
  | clientAudioOut : List Nat → Effect
  | closeClient : Effect
  | closeGemini : Effect
  deriving Repr, DecidableEq

/-- Parsed shape of a JSON message from Gemini, as inspected by
`handleGeminiMessage`: the `setupComplete` key, an error payload
(`error` or `rpcStatus`), `serverContent.interrupted`, the base64 `data`
strings of `serverContent.modelTurn.parts[*].inlineData`, and
`serverContent.turnComplete`. -/
structure GeminiMsg where
  setupComplete : Bool
  errorPayload : Option String
  interrupted : Bool
  audioParts : List (List Nat)
  turnComplete : Bool
  deriving Repr, DecidableEq

/-- Mutable fields of the `VoiceSession` Durable Object: whether each socket
reference is set, the `isReady` flag, and the `pendingAudio` queue (each chunk
a byte list). -/
structure SessionState where
  clientSocket : Bool
  geminiSocket : Bool
  isReady : Bool
  pendingAudio : List (List Nat)
  deriving Repr, DecidableEq

/-- Events delivered to the session by its two links: a binary client frame,
the parsed `stop` control message, an unparsable/unrecognized client text
frame, client close/error, a parsed Gemini JSON message, a non-string or
unparsable Gemini frame, and Gemini close/error. -/
inductive Event where
  | clientAudio : List Nat → Event
  | clientStop : Event
  | clientMalformed : Event
  | clientClose : Event
  | clientError : Event
  | geminiMsg : GeminiMsg → Event
  | geminiMalformed : Event
  | geminiClose : Event
  | geminiError : Event
  deriving Repr, DecidableEq

/-- Embedding of `sendToClient`: `this.clientSocket?.send(JSON.stringify(data))`
inside `try { } catch { }` — a send effect when the reference is set, nothing
otherwise, never a thrown error. The argument is the `type` field of the sent
JSON object. -/
def sendToClient (s : SessionState) (m : String) : List Effect :=
  if s.clientSocket then [Effect.clientMsg m] else []

/-- Embedding of `forwardAudioToGemini`: base64-encode the chunk and send the
`realtimeInput.audio` envelope on the Gemini socket if it is set. -/
def forwardAudioToGemini (s : SessionState) (audioBuffer : List Nat) : List Effect :=
  if s.geminiSocket then [Effect.upstreamAudio (arrayBufferToBase64 audioBuffer)] else []

/-- Embedding of the binary-frame branch of `handleClientMessage`: before
readiness, push onto `pendingAudio` only while it holds fewer than 10 chunks
(silently dropping otherwise); after readiness, forward immediately. -/
def handleClientAudio (s : SessionState) (chunk : List Nat) : SessionState × List Effect :=
  if !s.isReady then
    if s.pendingAudio.length < 10 then
      ({ s with pendingAudio := s.pendingAudio ++ [chunk] }, [])
    else (s, [])
  else (s, forwardAudioToGemini s chunk)

/-- Terminal state set by `cleanup`: both socket references cleared,
`isReady = false`, `pendingAudio = []`. -/
def cleanedState : SessionState :=
  { clientSocket := false, geminiSocket := false, isReady := false, pendingAudio := [] }

/-- Close attempts performed by `cleanup` on a given state: one per socket
reference still set, client first. -/
def closeEffects (s : SessionState) : List Effect :=
  (if s.clientSocket then [Effect.closeClient] else []) ++
    (if s.geminiSocket then [Effect.closeGemini] else [])

/-- Effect-level embedding of `cleanup`: attempt to close each present socket,
clear both references, reset `isReady`, empty `pendingAudio`. -/
def cleanupPure (s : SessionState) : SessionState × List Effect :=
  (cleanedState, closeEffects s)

/-- Embedding of a `try { ... } catch { }` block whose body's outcome is `r`:
the error, if any, is swallowed. -/
def trySwallow (r : Except String Unit) : Except String Unit :=
  match r with
  | Except.ok _ => Except.ok ()
  | Except.error _ => Except.ok ()

/-- Exception-aware embedding of `cleanup`: `rc` and `rg` are the outcomes of
the two `close` calls (invoked only when the corresponding reference is set);
each is wrapped in `try { } catch { }` exactly as in the source. -/
def cleanup (rc rg : Except String Unit) (s : SessionState) :
    Except String (SessionState × List Effect) := do
  let _ ← trySwallow (if s.clientSocket then rc else Except.ok ())
  let _ ← trySwallow (if s.geminiSocket then rg else Except.ok ())
  return cleanupPure s

/-- Embedding of the `stop` branch of `handleClientMessage`, effect level:
best-effort `audioStreamEnd` send on the Gemini socket, then `cleanup`. -/
def handleClientStopPure (s : SessionState) : SessionState × List Effect :=
  ((cleanupPure s).1,
    (if s.geminiSocket then [Effect.upstreamStreamEnd] else []) ++ (cleanupPure s).2)

/-- Exception-aware embedding of the `stop` branch: `rsend` is the outcome of
the `geminiSocket?.send` call, wrapped in `try { } catch { }`; `cleanup` runs
afterwards unconditionally. -/
def handleClientStop (rsend : Except String Unit) (s : SessionState) :
    Except String (SessionState × List Effect) := do
  let _ ← trySwallow (if s.geminiSocket then rsend else Except.ok ())
  return handleClientStopPure s

/-- Embedding of `handleGeminiMessage` on a parsed JSON message: the
`setupComplete` branch sets `isReady`, notifies the client with `ready`, and
drains `pendingAudio` through `forwardAudioToGemini`; otherwise error payload,
interruption, inline audio parts (non-empty strings only, decoded and sent as
binary client frames), and turn completion are relayed in that order. -/
def handleGeminiMessage (s : SessionState) (m : GeminiMsg) : SessionState × List Effect :=
  if m.setupComplete then
    ({ s with isReady := true, pendingAudio := [] },
      sendToClient { s with isReady := true } "ready" ++
        (s.pendingAudio.map (forwardAudioToGemini { s with isReady := true })).flatten)
  else
    (s,
      (match m.errorPayload with
        | some _ => sendToClient s "error"
        | none => []) ++
      (if m.interrupted then sendToClient s "interrupted" else []) ++
      ((m.audioParts.filter (fun p => 0 < p.length)).map (fun p =>
        if s.clientSocket then [Effect.clientAudioOut (base64ToUint8Array p)] else [])).flatten ++
      (if m.turnComplete then sendToClient s "turn_complete" else []))

/-- One step of the session: dispatch an event to the handler the source
installs for it. Client close/error and Gemini close run `cleanup` directly;
a Gemini error event sends an `error` control message and then `cleanup`;
malformed frames are ignored. -/
def step (s : SessionState) : Event → SessionState × List Effect
  | Event.clientAudio c => handleClientAudio s c
  | Event.clientStop => handleClientStopPure s
  | Event.clientMalformed => (s, [])
  | Event.clientClose => cleanupPure s
  | Event.clientError => cleanupPure s
  | Event.geminiMsg m => handleGeminiMessage s m
  | Event.geminiMalformed => (s, [])
  | Event.geminiClose => cleanupPure s
  | Event.geminiError => ((cleanupPure s).1, sendToClient s "error" ++ (cleanupPure s).2)

/-- Serialized execution of a sequence of events against the session (the
Durable Object serializes its handlers), collecting all effects in order. -/
def run (s : SessionState) : List Event → SessionState × List Effect
  | [] => (s, [])
  | e :: rest =>
    ((run (step s e).1 rest).1, (step s e).2 ++ (run (step s e).1 rest).2)

/-- Outcome of the `fetch` of the Gemini WebSocket endpoint inside
`connectToGemini`: the upgrade succeeded (`response.webSocket` set), the
provider did not upgrade (`response.webSocket` null, with HTTP status), or an
exception was thrown before/at the fetch. -/
inductive UpgradeOutcome where
  | success : UpgradeOutcome
  | noUpgrade : Nat → UpgradeOutcome
  | thrown : String → UpgradeOutcome
  deriving Repr, DecidableEq

/-- Embedding of `connectToGemini` around the upgrade attempt: on success the
Gemini socket reference is set and the single setup message is sent; when the
provider does not upgrade, or an exception is thrown, a single `error` control
message is sent to the client and the function returns — no retry, no close. -/
def connectToGemini (s : SessionState) : UpgradeOutcome → SessionState × List Effect
  | UpgradeOutcome.success => ({ s with geminiSocket := true }, [Effect.upstreamSetup])
  | UpgradeOutcome.noUpgrade _ => (s, sendToClient s "error")
  | UpgradeOutcome.thrown _ => (s, sendToClient s "error")

/-- OAuth-relevant fields of `Env`. -/
structure AuthEnv where
  geminiAccessToken : Option String
  googleClientEmail : Option String
  googlePrivateKey : Option String
  deriving Repr, DecidableEq

/-- Shape of the token-endpoint JSON response as read by `getAccessToken`
(`resp.ok`, `data.access_token`, `data.expires_in`). -/
structure TokenResponse where
  ok : Bool
  accessTokenField : Option String
  expiresInField : Option Nat
  deriving Repr, DecidableEq

/-- The module-level `cachedAccessToken` record. -/
structure CachedToken where
  value : String
  expiresAtMs : Nat
  deriving Repr, DecidableEq

/-- Exchange leg of `getAccessToken`: throw when the response is not ok or
carries no usable (JS-truthy) `access_token`; otherwise overwrite the cache
with the fresh token expiring `expires_in` (default 3600) seconds from now.
The `Bool` in the result records that a token-exchange call was performed. -/
def exchangeToken (nowMs : Nat) (resp : TokenResponse) :
    Except String (String × Option CachedToken × Bool) :=
  match resp.accessTokenField with
  | none => Except.error ("OAuth token exchange failed")
  | some tok =>
    if resp.ok = false ∨ tok = "" then Except.error ("OAuth token exchange failed")
    else
      Except.ok (tok,
        some { value := tok, expiresAtMs := nowMs + (resp.expiresInField.getD 3600) * 1000 },
        true)

/-- Embedding of `getAccessToken`: `nowMs` is `Date.now()`, `cache` the current
`cachedAccessToken`, `resp` the token-endpoint response that a fresh exchange
would observe. Returns the token, the cache after the call, and whether an
exchange call was made. A static `GEMINI_ACCESS_TOKEN` short-circuits; missing
signing credentials throw; a cached token still valid for strictly more than
60 s is served without any exchange. -/
def getAccessToken (env : AuthEnv) (nowMs : Nat) (cache : Option CachedToken)
    (resp : TokenResponse) : Except String (String × Option CachedToken × Bool) :=
  match env.geminiAccessToken with
  | some t => Except.ok (t, cache, false)
  | none =>
    if env.googleClientEmail.isNone ∨ env.googlePrivateKey.isNone then
      Except.error ("Missing OAuth credentials: GOOGLE_CLIENT_EMAIL/GOOGLE_PRIVATE_KEY")
    else
      match cache with
      | some c =>
        if nowMs + 60000 < c.expiresAtMs then Except.ok (c.value, some c, false)
        else exchangeToken nowMs resp
      | none => exchangeToken nowMs resp

/-- Claim C4: teardown is idempotent and non-throwing — for every state and
every outcome of the two close calls (including failures), `cleanup` returns
normally with both link references cleared, readiness false and pending audio
empty; a second invocation yields the same end state and performs no further
close, so each link's close is invoked at most once across the two runs. -/
theorem c4_cleanup_idempotent (rc rg rc2 rg2 : Except String Unit) (s : SessionState) :
    cleanup rc rg s = Except.ok (cleanedState, closeEffects s) ∧
    cleanup rc2 rg2 cleanedState = Except.ok (cleanedState, []) ∧
    (closeEffects s).count Effect.closeClient ≤ 1 ∧
    (closeEffects s).count Effect.closeGemini ≤ 1 := by
  have hswallow : ∀ r : Except String Unit, trySwallow r = Except.ok () := by
    intro r; cases r <;> rfl
  refine ⟨?_, ?_, ?_, ?_⟩
  · simp [cleanup, hswallow, cleanupPure, bind, Except.bind, pure, Except.pure]
  · simp [cleanup, hswallow, cleanupPure, cleanedState, closeEffects, bind, Except.bind, pure, Except.pure]
  · cases hc : s.clientSocket <;> cases hg : s.geminiSocket <;>
      simp [closeEffects, hc, hg]
  · cases hc : s.clientSocket <;> cases hg : s.geminiSocket <;>
      simp [closeEffects, hc, hg]

/-- Claim C8: on the client `stop` message, for every outcome of the
`audioStreamEnd` send on the upstream link (including a failure), the handler
returns normally having attempted the end-of-stream send exactly when the
upstream link is present, and teardown runs regardless: the end state is the
cleaned state and the close attempts of `cleanup` follow the send attempt. -/
theorem c8_stop_teardown (rsend : Except String Unit) (s : SessionState) :
    handleClientStop rsend s =
      Except.ok (cleanedState,
        (if s.geminiSocket then [Effect.upstreamStreamEnd] else []) ++ closeEffects s) ∧
    handleClientStopPure s =
      (cleanedState,
        (if s.geminiSocket then [Effect.upstreamStreamEnd] else []) ++ closeEffects s) := by
  have hswallow : ∀ r : Except String Unit, trySwallow r = Except.ok () := by
    intro r; cases r <;> rfl
  constructor
  · simp [handleClientStop, hswallow, handleClientStopPure, cleanupPure, bind, Except.bind, pure, Except.pure]
  · simp [handleClientStopPure, cleanupPure]

/-- Counterexample to claim C7: when the provider does not upgrade the
connection, `connectToGemini` sends a single `error` message to the client and
returns — with the client socket open — so the session is not terminated and
the client link is not closed, contrary to the claim. -/
theorem c7_counterexample :
    connectToGemini
        { clientSocket := true, geminiSocket := false, isReady := false, pendingAudio := [] }
        (UpgradeOutcome.noUpgrade 500) =
      ({ clientSocket := true, geminiSocket := false, isReady := false, pendingAudio := [] },
        [Effect.clientMsg ("error")]) ∧
    Effect.closeClient ∉
      (connectToGemini
        { clientSocket := true, geminiSocket := false, isReady := false, pendingAudio := [] }
        (UpgradeOutcome.noUpgrade 500)).2 := by
  constructor
  · rfl
  · decide

/-- Claim C7 as amended: when the provider does not upgrade the connection,
the session reports the failure to the client as a single `error` message and
makes no retry — the returned state is unchanged, the upstream link is never
established and no further connection attempt or close occurs — but the client
link is left open rather than closed. -/
theorem c7_amended_no_upgrade (s : SessionState) (status : Nat)
    (hc : s.clientSocket = true) :
    connectToGemini s (UpgradeOutcome.noUpgrade status) = (s, [Effect.clientMsg ("error")]) := by
  simp [connectToGemini, sendToClient, hc]

/-- Concrete instance of the amended claim C7. -/
theorem c7_amended_no_upgrade_witness :
    connectToGemini
        { clientSocket := true, geminiSocket := false, isReady := false, pendingAudio := [] }
        (UpgradeOutcome.noUpgrade 426) =
      ({ clientSocket := true, geminiSocket := false, isReady := false, pendingAudio := [] },
        [Effect.clientMsg ("error")]) :=
  c7_amended_no_upgrade
    { clientSocket := true, geminiSocket := false, isReady := false, pendingAudio := [] }
    426 rfl

/-- Session state right after `fetch` accepts the client socket and
`connectToGemini` has succeeded: both sockets set, not ready, empty queue. -/
def initialSession : SessionState :=
  { clientSocket := true, geminiSocket := true, isReady := false, pendingAudio := [] }

/-- The bare `setupComplete` message from Gemini. -/
def setupCompleteMsg : GeminiMsg :=
  { setupComplete := true, errorPayload := none, interrupted := false,
    audioParts := [], turnComplete := false }

theorem run_append (s : SessionState) (l1 l2 : List Event) :
    run s (l1 ++ l2) =
      ((run (run s l1).1 l2).1, (run s l1).2 ++ (run (run s l1).1 l2).2) := by
  induction l1 generalizing s with
  | nil => simp [run]
  | cons e rest ih => simp [run, ih]

/-- While not ready, a burst of client audio chunks is queued into
`pendingAudio` in arrival order, the first `10 - |pendingAudio|` kept and the
rest silently dropped; no effect is produced at all. -/
theorem run_buffer_drop (chunks : List (List Nat)) (s : SessionState)
    (hr : s.isReady = false) (hp : s.pendingAudio.length ≤ 10) :
    run s (chunks.map Event.clientAudio) =
      ({ s with pendingAudio :=
          s.pendingAudio ++ chunks.take (10 - s.pendingAudio.length) }, []) := by
  induction chunks generalizing s with
  | nil => simp [run]
  | cons c cs ih =>
    by_cases hlen : s.pendingAudio.length < 10
    · have hstep : step s (Event.clientAudio c) =
          ({ s with pendingAudio := s.pendingAudio ++ [c] }, []) := by
        simp [step, handleClientAudio, hr, hlen]
      have ihc := ih { s with pendingAudio := s.pendingAudio ++ [c] }
        (by simp [hr]) (by simp; omega)
      simp only [List.map_cons, run, hstep, ihc]
      have htake : (10 : Nat) - s.pendingAudio.length = (10 - (s.pendingAudio.length + 1)) + 1 := by
        omega
      simp [htake, List.take_succ_cons]
    · have h10 : s.pendingAudio.length = 10 := by omega
      have hstep : step s (Event.clientAudio c) = (s, []) := by
        simp [step, handleClientAudio, hr, hlen]
      have ihc := ih s hr hp
      simp only [List.map_cons, run, hstep, ihc]
      simp [h10]

/-- Once ready with the upstream link set, each client audio chunk is
forwarded immediately, base64-encoded, with no state change. -/
theorem run_forward (post : List (List Nat)) (s : SessionState)
    (hr : s.isReady = true) (hg : s.geminiSocket = true) :
    run s (post.map Event.clientAudio) =
      (s, post.map (fun c => Effect.upstreamAudio (arrayBufferToBase64 c))) := by
  induction post with
  | nil => simp [run]
  | cons c cs ih =>
    have hstep : step s (Event.clientAudio c) =
        (s, [Effect.upstreamAudio (arrayBufferToBase64 c)]) := by
      simp [step, handleClientAudio, hr, forwardAudioToGemini, hg]
    simp [run, hstep, ih]

/-- State with both sockets set and the given pending queue, before readiness. -/
def midSession (chunks : List (List Nat)) : SessionState :=
  { clientSocket := true, geminiSocket := true, isReady := false, pendingAudio := chunks }

/-- State with both sockets set, ready, empty queue. -/
def readySession : SessionState :=
  { clientSocket := true, geminiSocket := true, isReady := true, pendingAudio := [] }

theorem flatten_forward (s : SessionState) (hg : s.geminiSocket = true)
    (l : List (List Nat)) :
    (l.map (forwardAudioToGemini s)).flatten =
      l.map (fun c => Effect.upstreamAudio (arrayBufferToBase64 c)) := by
  induction l with
  | nil => rfl
  | cons c cs ih => simp [forwardAudioToGemini, hg, ih]

/-- Handling any Gemini message with `setupComplete` set: readiness is turned
on, the client is notified `ready`, and `pendingAudio` is drained to the
upstream link in original order. -/
theorem step_setup (s : SessionState) (m : GeminiMsg) (hm : m.setupComplete = true)
    (hc : s.clientSocket = true) (hg : s.geminiSocket = true) :
    step s (Event.geminiMsg m) =
      ({ s with isReady := true, pendingAudio := [] },
        Effect.clientMsg ("ready") ::
          s.pendingAudio.map (fun c => Effect.upstreamAudio (arrayBufferToBase64 c))) := by
  simp [step, handleGeminiMessage, hm, sendToClient, hc, flatten_forward, hg]

theorem run_buffer_initial (chunks : List (List Nat)) (h : chunks.length ≤ 10) :
    run initialSession (chunks.map Event.clientAudio) = (midSession chunks, []) := by
  have hb := run_buffer_drop chunks initialSession rfl (by simp [initialSession])
  rw [hb]
  simp [initialSession, midSession, List.take_of_length_le h]

theorem run_setup_mid (chunks : List (List Nat)) :
    run (midSession chunks) [Event.geminiMsg setupCompleteMsg] =
      (readySession,
        Effect.clientMsg ("ready") ::
          chunks.map (fun c => Effect.upstreamAudio (arrayBufferToBase64 c))) := by
  have hsetup := step_setup { clientSocket := true, geminiSocket := true, isReady := false, pendingAudio := chunks } setupCompleteMsg rfl rfl rfl
  simp [run, midSession, readySession, hsetup]

/-- Claim C1: for any ≤10 chunks sent before readiness and any chunks sent
after, the run consisting of the early chunks, the setup-complete signal, and
the later chunks notifies the client `ready` and delivers to the upstream link
exactly the early chunks followed by the later ones, each base64-encoded, in
order; moreover any chunk arriving once ready is forwarded in its own step
with no buffering and no state change. -/
theorem c1_buffering_order (chunks post : List (List Nat)) (h : chunks.length ≤ 10) :
    run initialSession
        (chunks.map Event.clientAudio ++ [Event.geminiMsg setupCompleteMsg] ++
          post.map Event.clientAudio) =
      (readySession,
        Effect.clientMsg ("ready") ::
          (chunks ++ post).map (fun c => Effect.upstreamAudio (arrayBufferToBase64 c))) ∧
    (∀ s c, s.isReady = true → s.geminiSocket = true →
      step s (Event.clientAudio c) = (s, [Effect.upstreamAudio (arrayBufferToBase64 c)])) := by
  constructor
  · rw [run_append, run_append, run_buffer_initial chunks h]
    rw [run_setup_mid chunks]
    rw [run_forward post readySession rfl rfl]
    simp
  · intro s c hr hg
    simp [step, handleClientAudio, hr, forwardAudioToGemini, hg]

/-- Concrete instance of claim C1 with three early chunks and one later one. -/
theorem c1_buffering_order_witness :
    run initialSession
        ([[1], [2], [3]].map Event.clientAudio ++ [Event.geminiMsg setupCompleteMsg] ++
          [[4]].map Event.clientAudio) =
      (readySession,
        Effect.clientMsg ("ready") ::
          ([[1], [2], [3]] ++ [[4]]).map
            (fun c => Effect.upstreamAudio (arrayBufferToBase64 c))) ∧
    (∀ s c, s.isReady = true → s.geminiSocket = true →
      step s (Event.clientAudio c) = (s, [Effect.upstreamAudio (arrayBufferToBase64 c)])) :=
  c1_buffering_order [[1], [2], [3]] [[4]] (by decide)

theorem run_buffer_initial_take (chunks : List (List Nat)) :
    run initialSession (chunks.map Event.clientAudio) = (midSession (chunks.take 10), []) := by
  have hb := run_buffer_drop chunks initialSession rfl (by simp [initialSession])
  rw [hb]
  simp [initialSession, midSession]

/-- Claim C2: when more than 10 chunks arrive before readiness, the whole
burst produces no effect at all (no error, no notification), the queue ends up
holding exactly the earliest 10 chunks, at no prefix of the burst does the
queue exceed 10, and on setup-complete exactly those earliest 10 chunks are
forwarded upstream. -/
theorem c2_buffer_bound (chunks : List (List Nat)) (h : 10 < chunks.length) :
    run initialSession (chunks.map Event.clientAudio) = (midSession (chunks.take 10), []) ∧
    (midSession (chunks.take 10)).pendingAudio.length = 10 ∧
    (∀ i, ((run initialSession ((chunks.take i).map Event.clientAudio)).1.pendingAudio.length
      ≤ 10)) ∧
    run initialSession (chunks.map Event.clientAudio ++ [Event.geminiMsg setupCompleteMsg]) =
      (readySession,
        Effect.clientMsg ("ready") ::
          (chunks.take 10).map (fun c => Effect.upstreamAudio (arrayBufferToBase64 c))) := by
  refine ⟨run_buffer_initial_take chunks, ?_, ?_, ?_⟩
  · simp [midSession]
    omega
  · intro i
    rw [run_buffer_initial_take (chunks.take i)]
    simp [midSession]
  · rw [run_append, run_buffer_initial_take chunks, run_setup_mid (chunks.take 10)]
    simp

/-- Concrete instance of claim C2 with 12 one-byte chunks. -/
theorem c2_buffer_bound_witness :
    run initialSession ((List.range 12).map (fun n => [n]) |>.map Event.clientAudio) =
      (midSession (((List.range 12).map (fun n => [n])).take 10), []) ∧
    (midSession (((List.range 12).map (fun n => [n])).take 10)).pendingAudio.length = 10 ∧
    (∀ i, ((run initialSession
        ((((List.range 12).map (fun n => [n])).take i).map Event.clientAudio)).1.pendingAudio.length
      ≤ 10)) ∧
    run initialSession
        (((List.range 12).map (fun n => [n])).map Event.clientAudio ++
          [Event.geminiMsg setupCompleteMsg]) =
      (readySession,
        Effect.clientMsg ("ready") ::
          (((List.range 12).map (fun n => [n])).take 10).map
            (fun c => Effect.upstreamAudio (arrayBufferToBase64 c))) :=
  c2_buffer_bound ((List.range 12).map (fun n => [n])) (by decide)

/-- An event carrying the provider setup-complete signal. -/
def isSetupEvent : Event → Bool
  | Event.geminiMsg m => m.setupComplete
  | _ => false

/-- No event of the list carries the setup-complete signal. -/
def noSetupEvents (evs : List Event) : Bool :=
  evs.all (fun e => !isSetupEvent e)

/-- Some effect of the list is an audio send on the upstream link. -/
def hasUpstreamAudio (l : List Effect) : Bool :=
  l.any (fun e => match e with
    | Effect.upstreamAudio _ => true
    | _ => false)

theorem hasUpstreamAudio_append (l1 l2 : List Effect) :
    hasUpstreamAudio (l1 ++ l2) = (hasUpstreamAudio l1 || hasUpstreamAudio l2) := by
  simp [hasUpstreamAudio]

theorem hasUpstreamAudio_sendToClient (s : SessionState) (x : String) :
    hasUpstreamAudio (sendToClient s x) = false := by
  cases hcs : s.clientSocket <;> simp [sendToClient, hcs, hasUpstreamAudio]

theorem hasUpstreamAudio_closeEffects (s : SessionState) :
    hasUpstreamAudio (closeEffects s) = false := by
  cases hcs : s.clientSocket <;> cases hgs : s.geminiSocket <;>
    simp [closeEffects, hcs, hgs, hasUpstreamAudio]

theorem hasUpstreamAudio_audioOut (s : SessionState) (parts : List (List Nat)) :
    hasUpstreamAudio ((parts.map (fun p =>
      if s.clientSocket then [Effect.clientAudioOut (base64ToUint8Array p)] else [])).flatten)
      = false := by
  induction parts with
  | nil => rfl
  | cons p ps ih =>
    cases hcs : s.clientSocket <;>
      simp_all [hasUpstreamAudio_append, hcs, hasUpstreamAudio]

theorem hasUpstreamAudio_nil : hasUpstreamAudio [] = false := rfl

theorem step_no_setup (s : SessionState) (e : Event) (hr : s.isReady = false)
    (he : isSetupEvent e = false) :
    (step s e).1.isReady = false ∧ hasUpstreamAudio (step s e).2 = false := by
  cases e with
  | clientAudio c =>
    simp only [step, handleClientAudio, hr, Bool.not_false, if_true]
    split_ifs <;> simp [hasUpstreamAudio, hr]
  | clientStop =>
    refine ⟨by simp [step, handleClientStopPure, cleanupPure, cleanedState], ?_⟩
    have h5 : hasUpstreamAudio (if s.geminiSocket then [Effect.upstreamStreamEnd] else [])
        = false := by
      cases hgs : s.geminiSocket <;> simp [hasUpstreamAudio]
    simp only [step, handleClientStopPure, cleanupPure]
    rw [hasUpstreamAudio_append, h5, hasUpstreamAudio_closeEffects]
    rfl
  | clientMalformed => exact ⟨hr, rfl⟩
  | clientClose =>
    exact ⟨rfl, hasUpstreamAudio_closeEffects s⟩
  | clientError =>
    exact ⟨rfl, hasUpstreamAudio_closeEffects s⟩
  | geminiMalformed => exact ⟨hr, rfl⟩
  | geminiClose =>
    exact ⟨rfl, hasUpstreamAudio_closeEffects s⟩
  | geminiError =>
    refine ⟨rfl, ?_⟩
    simp only [step, cleanupPure]
    rw [hasUpstreamAudio_append, hasUpstreamAudio_sendToClient,
      hasUpstreamAudio_closeEffects]
    rfl
  | geminiMsg m =>
    have hm : m.setupComplete = false := by simpa [isSetupEvent] using he
    constructor
    · simp [step, handleGeminiMessage, hm, hr]
    · simp only [step, handleGeminiMessage, hm, if_false, Bool.false_eq_true]
      rw [hasUpstreamAudio_append, hasUpstreamAudio_append, hasUpstreamAudio_append]
      have h1 : hasUpstreamAudio (match m.errorPayload with
          | some _ => sendToClient s "error"
          | none => []) = false := by
        cases hep : m.errorPayload
        · simp [hasUpstreamAudio_nil]
        · simpa using hasUpstreamAudio_sendToClient s ("error")
      have h2 : hasUpstreamAudio (if m.interrupted then sendToClient s "interrupted" else [])
          = false := by
        cases hi : m.interrupted
        · simp [hasUpstreamAudio_nil]
        · simpa using hasUpstreamAudio_sendToClient s ("interrupted")
      have h3 := hasUpstreamAudio_audioOut s (m.audioParts.filter (fun p => 0 < p.length))
      have h4 : hasUpstreamAudio (if m.turnComplete then sendToClient s "turn_complete" else [])
          = false := by
        cases ht : m.turnComplete
        · simp [hasUpstreamAudio_nil]
        · simpa using hasUpstreamAudio_sendToClient s ("turn_complete")
      simp [h1, h2, h3, h4]

/-- Claim C3: along any event sequence containing no setup-complete signal,
starting from a non-ready state, readiness stays false and no audio send ever
happens on the upstream link — in particular every audio chunk received before
the handshake completes is withheld from the upstream link. -/
theorem c3_no_premature_forwarding (evs : List Event) (s : SessionState)
    (hr : s.isReady = false) (hns : noSetupEvents evs = true) :
    (run s evs).1.isReady = false ∧ hasUpstreamAudio (run s evs).2 = false := by
  induction evs generalizing s with
  | nil => exact ⟨hr, rfl⟩
  | cons e rest ih =>
    have hcons : isSetupEvent e = false ∧ noSetupEvents rest = true := by
      simpa [noSetupEvents] using hns
    have hstep := step_no_setup s e hr hcons.1
    have ihr := ih (step s e).1 hstep.1 hcons.2
    refine ⟨by simpa [run] using ihr.1, ?_⟩
    simp [run, hasUpstreamAudio_append, hstep.2, ihr.2]

/-- Concrete instance of claim C3: audio, a non-setup Gemini message and a
stop, with no setup-complete — nothing reaches the upstream link as audio. -/
theorem c3_no_premature_forwarding_witness :
    (run initialSession
      [Event.clientAudio [1], Event.geminiMsg
        { setupComplete := false, errorPayload := none, interrupted := true,
          audioParts := [[65, 65, 61, 61]], turnComplete := true },
        Event.clientStop]).1.isReady = false ∧
    hasUpstreamAudio (run initialSession
      [Event.clientAudio [1], Event.geminiMsg
        { setupComplete := false, errorPayload := none, interrupted := true,
          audioParts := [[65, 65, 61, 61]], turnComplete := true },
        Event.clientStop]).2 = false :=
  c3_no_premature_forwarding _ initialSession rfl (by decide)

/-- Claim C9: the session invariant that `pendingAudio` is non-empty only
while readiness is false is preserved by every operation (client message
handling, provider message handling, teardown), and the moment readiness
becomes true — handling a setup-complete message — the queue is fully drained
to the upstream link in arrival order and left empty. -/
theorem c9_pending_invariant (s : SessionState) (e : Event) (m : GeminiMsg)
    (hinv : s.isReady = true → s.pendingAudio = [])
    (hm : m.setupComplete = true) (hc : s.clientSocket = true) (hg : s.geminiSocket = true) :
    ((step s e).1.isReady = true → (step s e).1.pendingAudio = []) ∧
    step s (Event.geminiMsg m) =
      ({ s with isReady := true, pendingAudio := [] },
        Effect.clientMsg ("ready") ::
          s.pendingAudio.map (fun c => Effect.upstreamAudio (arrayBufferToBase64 c))) := by
  refine ⟨?_, step_setup s m hm hc hg⟩
  cases e with
  | clientAudio c =>
    cases hrs : s.isReady with
    | false =>
      simp only [step, handleClientAudio, hrs, Bool.not_false, if_true]
      split_ifs <;> simp [hrs]
    | true =>
      simp only [step, handleClientAudio, hrs, Bool.not_true, if_false]
      intro
      exact hinv hrs
  | clientStop => intro; rfl
  | clientMalformed => exact hinv
  | clientClose => intro; rfl
  | clientError => intro; rfl
  | geminiMalformed => exact hinv
  | geminiClose => intro; rfl
  | geminiError => intro; rfl
  | geminiMsg m2 =>
    cases hm2 : m2.setupComplete with
    | true => simp [step, handleGeminiMessage, hm2]
    | false =>
      simp only [step, handleGeminiMessage, hm2, Bool.false_eq_true, if_false]
      exact hinv

/-- Concrete instance of claim C9: a ready state with an empty queue handling
an audio chunk, and a buffering state handling setup-complete. -/
theorem c9_pending_invariant_witness :
    (((step readySession (Event.clientAudio [5])).1.isReady = true →
      (step readySession (Event.clientAudio [5])).1.pendingAudio = []) ∧
    step readySession (Event.geminiMsg setupCompleteMsg) =
      ({ readySession with isReady := true, pendingAudio := [] },
        Effect.clientMsg ("ready") ::
          readySession.pendingAudio.map
            (fun c => Effect.upstreamAudio (arrayBufferToBase64 c)))) :=
  c9_pending_invariant readySession (Event.clientAudio [5]) setupCompleteMsg
    (by intro; rfl) rfl rfl rfl

/-- Scan of an effect trace checking that every close of the client link is
preceded (in the same trace) by a `ready` or `error` client message. -/
def notifiedBeforeClose : Bool → List Effect → Bool
  | _, [] => true
  | seen, Effect.clientMsg m :: rest =>
    notifiedBeforeClose (seen || m == "ready" || m == "error") rest
  | seen, Effect.closeClient :: rest => seen && notifiedBeforeClose seen rest
  | seen, _ :: rest => notifiedBeforeClose seen rest

/-- Counterexample to claim C5: when the upstream link closes before the
handshake completed (a failure inside the gateway, not client-initiated), the
`close` handler runs `cleanup` directly — the gateway closes the client link
without the client ever receiving a `ready` or `error` message. -/
theorem c5_counterexample :
    Effect.closeClient ∈ (run initialSession [Event.geminiClose]).2 ∧
    notifiedBeforeClose false (run initialSession [Event.geminiClose]).2 = false := by
  decide

/-- Claim C5 as amended: when the upstream link reports an error event the
client does receive an `error` message before the gateway closes the client
link, but when the upstream link simply closes (including before handshake
completion) the gateway closes the client link without sending `ready` or
`error` first. -/
theorem c5_amended_notification (s : SessionState) (hc : s.clientSocket = true) :
    notifiedBeforeClose false (step s Event.geminiError).2 = true ∧
    (∀ m, Effect.clientMsg m ∉ (step s Event.geminiClose).2) := by
  constructor
  · cases hg : s.geminiSocket <;>
      simp [step, cleanupPure, closeEffects, sendToClient, hc, hg, notifiedBeforeClose]
  · intro m
    cases hg : s.geminiSocket <;>
      simp [step, cleanupPure, closeEffects, hc, hg]

/-- Concrete instance of the amended claim C5. -/
theorem c5_amended_notification_witness :
    notifiedBeforeClose false (step initialSession Event.geminiError).2 = true ∧
    (∀ m, Effect.clientMsg m ∉ (step initialSession Event.geminiClose).2) :=
  c5_amended_notification initialSession rfl

/-- Claim C6: with signing credentials configured and no static token, a call
served while the cached token is still valid for strictly more than 60 s
returns the cached value and performs no exchange; otherwise (stale cache or
no cache) exactly one fresh exchange runs and its result overwrites the cache;
and a second call within the fresh token's validity window performs no further
exchange, so two such sessions trigger only one exchange in total. -/
theorem c6_credential_cache (env : AuthEnv) (nowMs now2 : Nat) (c : CachedToken)
    (resp resp2 : TokenResponse) (tok : String)
    (hstatic : env.geminiAccessToken = none)
    (hemail : env.googleClientEmail.isNone = false)
    (hkey : env.googlePrivateKey.isNone = false)
    (hok : resp.ok = true) (htok : resp.accessTokenField = some tok) (hne : tok ≠ "") :
    (nowMs + 60000 < c.expiresAtMs →
      getAccessToken env nowMs (some c) resp = Except.ok (c.value, some c, false)) ∧
    (¬ nowMs + 60000 < c.expiresAtMs →
      getAccessToken env nowMs (some c) resp =
        Except.ok (tok,
          some { value := tok, expiresAtMs := nowMs + (resp.expiresInField.getD 3600) * 1000 },
          true)) ∧
    getAccessToken env nowMs none resp =
      Except.ok (tok,
        some { value := tok, expiresAtMs := nowMs + (resp.expiresInField.getD 3600) * 1000 },
        true) ∧
    (now2 + 60000 < nowMs + (resp.expiresInField.getD 3600) * 1000 →
      getAccessToken env now2
          (some { value := tok, expiresAtMs := nowMs + (resp.expiresInField.getD 3600) * 1000 })
          resp2 =
        Except.ok (tok,
          some { value := tok, expiresAtMs := nowMs + (resp.expiresInField.getD 3600) * 1000 },
          false)) := by
  have hexch : exchangeToken nowMs resp =
      Except.ok (tok,
        some { value := tok, expiresAtMs := nowMs + (resp.expiresInField.getD 3600) * 1000 },
        true) := by
    simp [exchangeToken, htok, hok, hne]
  refine ⟨?_, ?_, ?_, ?_⟩
  · intro hvalid
    simp [getAccessToken, hstatic, hemail, hkey, hvalid]
  · intro hstale
    simp [getAccessToken, hstatic, hemail, hkey, hstale, hexch]
  · simp [getAccessToken, hstatic, hemail, hkey, hexch]
  · intro hwindow
    simp [getAccessToken, hstatic, hemail, hkey, hwindow]

/-- Concrete instance of claim C6. -/
theorem c6_credential_cache_witness :
    ((1000 : Nat) + 60000 < 500000 →
      getAccessToken
          { geminiAccessToken := none, googleClientEmail := some ("sa"),
            googlePrivateKey := some ("pk") } 1000
          (some { value := "cached", expiresAtMs := 500000 })
          { ok := true, accessTokenField := some ("fresh"), expiresInField := some 3600 } =
        Except.ok ("cached", some { value := "cached", expiresAtMs := 500000 }, false)) ∧
    (¬ (1000 : Nat) + 60000 < 500000 →
      getAccessToken
          { geminiAccessToken := none, googleClientEmail := some ("sa"),
            googlePrivateKey := some ("pk") } 1000
          (some { value := "cached", expiresAtMs := 500000 })
          { ok := true, accessTokenField := some ("fresh"), expiresInField := some 3600 } =
        Except.ok ("fresh", some { value := "fresh", expiresAtMs := 1000 + 3600 * 1000 }, true)) ∧
    getAccessToken
        { geminiAccessToken := none, googleClientEmail := some ("sa"),
          googlePrivateKey := some ("pk") } 1000 none
        { ok := true, accessTokenField := some ("fresh"), expiresInField := some 3600 } =
      Except.ok ("fresh", some { value := "fresh", expiresAtMs := 1000 + 3600 * 1000 }, true) ∧
    ((2000 : Nat) + 60000 < 1000 + 3600 * 1000 →
      getAccessToken
          { geminiAccessToken := none, googleClientEmail := some ("sa"),
            googlePrivateKey := some ("pk") } 2000
          (some { value := "fresh", expiresAtMs := 1000 + 3600 * 1000 })
          { ok := false, accessTokenField := none, expiresInField := none } =
        Except.ok ("fresh", some { value := "fresh", expiresAtMs := 1000 + 3600 * 1000 },
          false)) :=
  c6_credential_cache
    { geminiAccessToken := none, googleClientEmail := some ("sa"),
      googlePrivateKey := some ("pk") } 1000 2000
    { value := "cached", expiresAtMs := 500000 }
    { ok := true, accessTokenField := some ("fresh"), expiresInField := some 3600 }
    { ok := false, accessTokenField := none, expiresInField := none }
    "fresh" rfl rfl rfl rfl rfl (by decide)

end VoiceGateway
